import Mathlib

/-!
Shallow embedding of the `jseries` crate (src/crates/jseries/src/lib.rs):
the J3.2 air-track message codec.  Bytes are modelled as `Nat` (values
below 256 where produced), Rust `u16`/`i32`/`i16` as `Nat`/`Int` with
explicit two's-complement conversion at the wire boundary, and the
`f64`/`f32` arithmetic of `from_geo` as exact rational arithmetic (`ℚ`)
with Rust's round-half-away-from-zero and saturating float→int `as`
casts made explicit.

The repository contains a second, bit-packed ("squish") variant of the
air-track report, referenced by `src/crates/jseries/tests/j3-air-track.rs`
and `src/apps/bridge/src/main.rs` but whose definition is not present
under src/; it is modelled from the spec further below.
-/

/-- Prototype identifier for J3.2 Air Track (`MSG_ID_J3_2 : u8 = 0x32`). -/
def MSG_ID_J3_2 : Nat := 0x32

/-- Deku decoding failure.  The crate only ever hits deku's
incomplete-input error for this struct (all fields are fixed-width
integers); `needBits` records how many bits the failing field read
required.  The Rust code stringifies the deku error when wrapping it
(`Error::Deku(e.to_string())`); we keep it structured, since no claim
depends on the rendered text. -/
inductive DekuError where
  | incomplete (needBits : Nat)
  deriving DecidableEq

/-- Error enum of the crate (src/crates/jseries/src/lib.rs lines 9-14):
`Unsupported(u8)`, `Short(usize)`, `Deku(String)`. -/
inductive JError where
  | Unsupported (k : Nat)
  | Short (n : Nat)
  | Deku (e : DekuError)
  deriving DecidableEq

/-- Decides whether a decode result is the `Short` error variant. -/
def JError.isShort : JError → Bool
  | .Short _ => true
  | _ => false

/-- Big-endian byte encoding: `beBytes k n` is the `k`-byte big-endian
encoding of `n % 256^k`, most significant byte first (deku `endian = big`). -/
def beBytes : Nat → Nat → List Nat
  | 0, _ => []
  | k + 1, n => (n / 256 ^ k) % 256 :: beBytes k n

/-- Reads `k` bytes big-endian from the front of a buffer, returning the
value and the remaining bytes, or `none` if fewer than `k` bytes remain. -/
def readBytes : Nat → List Nat → Option (Nat × List Nat)
  | 0, l => some (0, l)
  | _ + 1, [] => none
  | k + 1, b :: l => (readBytes k l).map (fun p => (b * 256 ^ k + p.1, p.2))

/-- Reads `k` bytes as deku does, failing with the incomplete-input error
(requesting the field's `8*k` bits) when the buffer is too short. -/
def readBytesD (k : Nat) (l : List Nat) : Except DekuError (Nat × List Nat) :=
  match readBytes k l with
  | some p => .ok p
  | none => .error (.incomplete (8 * k))

/-- Two's-complement encoding of an integer into `w` bits. -/
def toTwos (w : Nat) (x : Int) : Nat := (x % ((2 : Int) ^ w)).toNat

/-- Two's-complement decoding of a `w`-bit pattern. -/
def fromTwos (w : Nat) (n : Nat) : Int :=
  if n < 2 ^ (w - 1) then (n : Int) else (n : Int) - (2 : Int) ^ w

/-- Prototype J3.2 Air Track body (src/crates/jseries/src/lib.rs lines
70-91): big-endian, fixed-width, byte-aligned layout.  `track : u16`,
`lat_e7 : i32`, `lon_e7 : i32`, `alt_m : i16`, `speed_ms : u16`,
`heading_cdeg : u16`. -/
structure J3_2AirTrack where
  track : Nat
  lat_e7 : Int
  lon_e7 : Int
  alt_m : Int
  speed_ms : Nat
  heading_cdeg : Nat
  deriving DecidableEq

/-- Width invariants of the byte-aligned layout: each field fits its
declared Rust integer type. -/
def J3_2AirTrack.Wellformed (r : J3_2AirTrack) : Prop :=
  r.track < 2 ^ 16 ∧
  -(2 : Int) ^ 31 ≤ r.lat_e7 ∧ r.lat_e7 < (2 : Int) ^ 31 ∧
  -(2 : Int) ^ 31 ≤ r.lon_e7 ∧ r.lon_e7 < (2 : Int) ^ 31 ∧
  -(2 : Int) ^ 15 ≤ r.alt_m ∧ r.alt_m < (2 : Int) ^ 15 ∧
  r.speed_ms < 2 ^ 16 ∧ r.heading_cdeg < 2 ^ 16

instance (r : J3_2AirTrack) : Decidable r.Wellformed := by
  unfold J3_2AirTrack.Wellformed; infer_instance

/-- Deku-derived serialization of the body: each field written big-endian
at its declared byte width, in declaration order.  Writing fixed-width
integer fields cannot fail, so the `Result` is always `Ok` (the signature
is fallible only because deku's trait is). -/
def J3_2AirTrack.to_bytes (r : J3_2AirTrack) : Except DekuError (List Nat) :=
  .ok (beBytes 2 r.track ++ beBytes 4 (toTwos 32 r.lat_e7) ++
       beBytes 4 (toTwos 32 r.lon_e7) ++ beBytes 2 (toTwos 16 r.alt_m) ++
       beBytes 2 r.speed_ms ++ beBytes 2 r.heading_cdeg)

/-- Deku-derived deserialization of the body: reads each field big-endian
at its declared width, in order, returning the parsed struct and the
unconsumed rest of the buffer; fails with deku's incomplete-input error
when a field read runs past the end. -/
def J3_2AirTrack.from_bytes (l : List Nat) :
    Except DekuError (J3_2AirTrack × List Nat) :=
  match readBytesD 2 l with
  | .error e => .error e
  | .ok (t, l) =>
    match readBytesD 4 l with
    | .error e => .error e
    | .ok (la, l) =>
      match readBytesD 4 l with
      | .error e => .error e
      | .ok (lo, l) =>
        match readBytesD 2 l with
        | .error e => .error e
        | .ok (al, l) =>
          match readBytesD 2 l with
          | .error e => .error e
          | .ok (sp, l) =>
            match readBytesD 2 l with
            | .error e => .error e
            | .ok (hd, l) =>
              .ok (⟨t, fromTwos 32 la, fromTwos 32 lo, fromTwos 16 al, sp, hd⟩, l)

/-- Message enum: single variant `J3_2(J3_2AirTrack)`. -/
inductive JMessage where
  | J3_2 (body : J3_2AirTrack)
  deriving DecidableEq

/-- Envelope decoder (src/crates/jseries/src/lib.rs lines 40-53): empty
input fails with `Short(len)`; byte 0 is the kind; `0x32` delegates the
remainder to the body codec, converting a deku failure through
`From<DekuError>` into `Deku`; any other kind fails with `Unsupported`. -/
def JMessage.from_bytes (input : List Nat) : Except JError JMessage :=
  match input with
  | [] => .error (.Short 0)
  | kind :: rest =>
    if kind = MSG_ID_J3_2 then
      match J3_2AirTrack.from_bytes rest with
      | .ok (body, _) => .ok (.J3_2 body)
      | .error e => .error (.Deku e)
    else
      .error (.Unsupported kind)

/-- Envelope encoder (src/crates/jseries/src/lib.rs lines 55-65): pushes
the kind byte, then the body codec's output. -/
def JMessage.to_bytes (m : JMessage) : Except JError (List Nat) :=
  match m with
  | .J3_2 v =>
    match v.to_bytes with
    | .ok body => .ok (MSG_ID_J3_2 :: body)
    | .error e => .error (.Deku e)

/-- Rust `f64::round` / `f32::round` semantics on exact rationals:
round half away from zero. -/
def rustRound (q : ℚ) : Int :=
  if q < 0 then -⌊-q + 1 / 2⌋ else ⌊q + 1 / 2⌋

/-- Rust saturating float→`i32` `as` cast, on exact values. -/
def castI32 (x : Int) : Int := max (-(2 : Int) ^ 31) (min ((2 : Int) ^ 31 - 1) x)

/-- Rust saturating float→`u16` `as` cast, on exact values. -/
def castU16 (x : Int) : Nat := (max 0 (min 65535 x)).toNat

/-- Rust `rem_euclid` on exact rationals. -/
def remEuclidQ (a b : ℚ) : ℚ := a - b * ⌊a / b⌋

instance exceptDecEq {ε α : Type} [DecidableEq ε] [DecidableEq α] :
    DecidableEq (Except ε α) := fun a b =>
  match a, b with
  | .ok x, .ok y =>
    if h : x = y then isTrue (by rw [h]) else isFalse (fun hc => h (Except.ok.inj hc))
  | .error x, .error y =>
    if h : x = y then isTrue (by rw [h]) else isFalse (fun hc => h (Except.error.inj hc))
  | .ok _, .error _ => isFalse (fun hc => Except.noConfusion hc)
  | .error _, .ok _ => isFalse (fun hc => Except.noConfusion hc)

/-- Geodetic conversion of the byte-aligned prototype
(src/crates/jseries/src/lib.rs lines 93-114): `lat_e7 = (lat_deg * 1e7)
.round() as i32`, likewise longitude; `heading_cdeg = ((heading_deg
.rem_euclid(360.0)) * 100.0).round() as u16`; `track`, `alt_m`,
`speed_ms` verbatim.  The `f64`/`f32` arithmetic is modelled exactly over
`ℚ`; the function is total — it has no error path. -/
def J3_2AirTrack.from_geo (track : Nat) (lat_deg lon_deg : ℚ) (alt_m : Int)
    (speed_ms : Nat) (heading_deg : ℚ) : J3_2AirTrack :=
  { track := track
    lat_e7 := castI32 (rustRound (lat_deg * 10000000))
    lon_e7 := castI32 (rustRound (lon_deg * 10000000))
    alt_m := alt_m
    speed_ms := speed_ms
    heading_cdeg := castU16 (rustRound (remEuclidQ heading_deg 360 * 100)) }

/-- Modelled from the spec: the bit-packed ("squish") variant of the air
track report.  The repository's Kani test
`src/crates/jseries/tests/j3-air-track.rs` and the bridge application
`src/apps/bridge/src/main.rs` reference a `J3_2AirTrack` with fields
`latitude`, `longitude`, `altitude`, `track_number` and a `from_geo`
taking `alt_m : f64` and `heading_deg : u16`, but that definition is not
present under src/; only the byte-aligned variant above is.  Fields
follow spec §3. -/
structure AirTrackReport where
  track : Nat
  latitude : Int
  longitude : Int
  track_number : Nat
  altitude : Int
  parity : Nat
  speed_ms : Nat
  heading_cdeg : Nat
  deriving DecidableEq

/-- Modelled from the spec: the quantizing `from_geo` of the bit-packed
variant, absent from src/.  Spec §4.2: latitude
`round((lat_deg + 90.0) * 524287 / 180)`, longitude
`round((lon_deg + 180.0) * 524287 / 360)`, altitude
`round(alt_m * 3.28084 / 25.0)`, `track_number = track & 0x0FFF`, heading
stored verbatim as centidegrees (no scaling), speed verbatim, parity
reserved as 0.  Floating-point inputs are modelled as exact rationals. -/
def AirTrackReport.from_geo (track : Nat) (lat_deg lon_deg alt_m : ℚ)
    (speed_ms heading_cdeg : Nat) : AirTrackReport :=
  { track := track
    latitude := rustRound ((lat_deg + 90) * 524287 / 180)
    longitude := rustRound ((lon_deg + 180) * 524287 / 360)
    track_number := track &&& 0x0FFF
    altitude := rustRound (alt_m * (328084 / 100000 : ℚ) / 25)
    parity := 0
    speed_ms := speed_ms
    heading_cdeg := heading_cdeg }

/-- Every `beBytes k n` buffer is exactly `k` bytes long. -/
theorem beBytes_length (k n : Nat) : (beBytes k n).length = k := by
  induction k generalizing n with
  | zero => rfl
  | succ k ih => simp [beBytes, ih]

/-- Reading `k` bytes off a `k`-byte big-endian encoding recovers the
value modulo `256 ^ k` and leaves the rest of the buffer untouched. -/
theorem readBytes_beBytes (k n : Nat) (rest : List Nat) :
    readBytes k (beBytes k n ++ rest) = some (n % 256 ^ k, rest) := by
  induction k with
  | zero => simp [beBytes, readBytes, Nat.mod_one]
  | succ k ih =>
    have key : n / 256 ^ k % 256 * 256 ^ k + n % 256 ^ k = n % 256 ^ (k + 1) := by
      rw [Nat.pow_succ]
      conv_rhs => rw [← Nat.div_add_mod (n % (256 ^ k * 256)) (256 ^ k)]
      rw [Nat.mod_mul_right_div_self, Nat.mod_mod_of_dvd n (dvd_mul_right (256 ^ k) 256)]
      ring
    show (readBytes k (beBytes k n ++ rest)).map
        (fun p => (n / 256 ^ k % 256 * 256 ^ k + p.1, p.2)) = some (n % 256 ^ (k + 1), rest)
    rw [ih]
    simp [key]

/-- Deku-style read of an in-range field succeeds and strips exactly the
field's bytes. -/
theorem readBytesD_beBytes (k n : Nat) (rest : List Nat) (h : n < 256 ^ k) :
    readBytesD k (beBytes k n ++ rest) = .ok (n, rest) := by
  simp [readBytesD, readBytes_beBytes, Nat.mod_eq_of_lt h]

/-- Two's-complement patterns for 32-bit fields are 32-bit values. -/
theorem toTwos32_lt (x : Int) : toTwos 32 x < 4294967296 := by
  have h0 : (0 : Int) < (2 : Int) ^ 32 := by positivity
  have h1 := Int.emod_nonneg x (ne_of_gt h0)
  have h2 := Int.emod_lt_of_pos x h0
  have h3 : (2 : Int) ^ 32 = 4294967296 := by norm_num
  unfold toTwos
  omega

/-- Two's-complement patterns for 16-bit fields are 16-bit values. -/
theorem toTwos16_lt (x : Int) : toTwos 16 x < 65536 := by
  have h0 : (0 : Int) < (2 : Int) ^ 16 := by positivity
  have h1 := Int.emod_nonneg x (ne_of_gt h0)
  have h2 := Int.emod_lt_of_pos x h0
  have h3 : (2 : Int) ^ 16 = 65536 := by norm_num
  unfold toTwos
  omega

/-- Decoding inverts encoding on 32-bit two's-complement fields. -/
theorem fromTwos_toTwos32 (x : Int) (h1 : -(2 : Int) ^ 31 ≤ x)
    (h2 : x < (2 : Int) ^ 31) : fromTwos 32 (toTwos 32 x) = x := by
  have e32 : (2 : Int) ^ 32 = 4294967296 := by norm_num
  have e31 : (2 : Int) ^ 31 = 2147483648 := by norm_num
  have en : (2 : Nat) ^ 31 = 2147483648 := by norm_num
  have h0 : (0 : Int) < (2 : Int) ^ 32 := by positivity
  have h3 := Int.emod_nonneg x (ne_of_gt h0)
  have h4 := Int.emod_lt_of_pos x h0
  have h5 : x % (2 : Int) ^ 32 = x ∨ x % (2 : Int) ^ 32 = x + (2 : Int) ^ 32 := by
    rcases le_or_lt 0 x with hx | hx
    · left
      exact Int.emod_eq_of_lt hx (by omega)
    · right
      have : (x + (2 : Int) ^ 32) % (2 : Int) ^ 32 = x % (2 : Int) ^ 32 := by
        conv_lhs => rw [show x + (2 : Int) ^ 32 = x + (2 : Int) ^ 32 * 1 by ring]
        exact Int.add_mul_emod_self_left x ((2 : Int) ^ 32) 1
      rw [← this]
      exact Int.emod_eq_of_lt (by omega) (by omega)
  unfold fromTwos toTwos
  rcases h5 with h5 | h5 <;> rw [h5] <;> split <;> omega

/-- Decoding inverts encoding on 16-bit two's-complement fields. -/
theorem fromTwos_toTwos16 (x : Int) (h1 : -(2 : Int) ^ 15 ≤ x)
    (h2 : x < (2 : Int) ^ 15) : fromTwos 16 (toTwos 16 x) = x := by
  have e16 : (2 : Int) ^ 16 = 65536 := by norm_num
  have e15 : (2 : Int) ^ 15 = 32768 := by norm_num
  have en : (2 : Nat) ^ 15 = 32768 := by norm_num
  have h0 : (0 : Int) < (2 : Int) ^ 16 := by positivity
  have h3 := Int.emod_nonneg x (ne_of_gt h0)
  have h4 := Int.emod_lt_of_pos x h0
  have h5 : x % (2 : Int) ^ 16 = x ∨ x % (2 : Int) ^ 16 = x + (2 : Int) ^ 16 := by
    rcases le_or_lt 0 x with hx | hx
    · left
      exact Int.emod_eq_of_lt hx (by omega)
    · right
      have : (x + (2 : Int) ^ 16) % (2 : Int) ^ 16 = x % (2 : Int) ^ 16 := by
        conv_lhs => rw [show x + (2 : Int) ^ 16 = x + (2 : Int) ^ 16 * 1 by ring]
        exact Int.add_mul_emod_self_left x ((2 : Int) ^ 16) 1
      rw [← this]
      exact Int.emod_eq_of_lt (by omega) (by omega)
  unfold fromTwos toTwos
  rcases h5 with h5 | h5 <;> rw [h5] <;> split <;> omega

/-- Deku-style read of an in-range field at the very end of the buffer. -/
theorem readBytesD_beBytes_nil (k n : Nat) (h : n < 256 ^ k) :
    readBytesD k (beBytes k n) = .ok (n, []) := by
  rw [← List.append_nil (beBytes k n)]
  exact readBytesD_beBytes k n [] h

/-- Body decoding inverts body encoding for every wellformed report,
consuming the entire 16-byte body. -/
theorem body_roundtrip (r : J3_2AirTrack) (h : r.Wellformed) :
    J3_2AirTrack.from_bytes
      (beBytes 2 r.track ++ beBytes 4 (toTwos 32 r.lat_e7) ++
       beBytes 4 (toTwos 32 r.lon_e7) ++ beBytes 2 (toTwos 16 r.alt_m) ++
       beBytes 2 r.speed_ms ++ beBytes 2 r.heading_cdeg) = .ok (r, []) := by
  obtain ⟨t, la, lo, al, sp, hd⟩ := r
  obtain ⟨h1, h2, h3, h4, h5, h6, h7, h8, h9⟩ := h
  simp only at h1 h2 h3 h4 h5 h6 h7 h8 h9
  have e1 : t < 256 ^ 2 := by norm_num at h1 ⊢; omega
  have e2 : toTwos 32 la < 256 ^ 4 := by
    have := toTwos32_lt la; norm_num; omega
  have e3 : toTwos 32 lo < 256 ^ 4 := by
    have := toTwos32_lt lo; norm_num; omega
  have e4 : toTwos 16 al < 256 ^ 2 := by
    have := toTwos16_lt al; norm_num; omega
  have e5 : sp < 256 ^ 2 := by norm_num at h8 ⊢; omega
  have e6 : hd < 256 ^ 2 := by norm_num at h9 ⊢; omega
  have r1 := readBytesD_beBytes 2 t
    (beBytes 4 (toTwos 32 la) ++ (beBytes 4 (toTwos 32 lo) ++
     (beBytes 2 (toTwos 16 al) ++ (beBytes 2 sp ++ beBytes 2 hd)))) e1
  have r2 := readBytesD_beBytes 4 (toTwos 32 la)
    (beBytes 4 (toTwos 32 lo) ++
     (beBytes 2 (toTwos 16 al) ++ (beBytes 2 sp ++ beBytes 2 hd))) e2
  have r3 := readBytesD_beBytes 4 (toTwos 32 lo)
    (beBytes 2 (toTwos 16 al) ++ (beBytes 2 sp ++ beBytes 2 hd)) e3
  have r4 := readBytesD_beBytes 2 (toTwos 16 al)
    (beBytes 2 sp ++ beBytes 2 hd) e4
  have r5 := readBytesD_beBytes 2 sp (beBytes 2 hd) e5
  have r6 := readBytesD_beBytes_nil 2 hd e6
  simp only [J3_2AirTrack.from_bytes, List.append_assoc, r1, r2, r3, r4, r5, r6,
    fromTwos_toTwos32 la h2 h3, fromTwos_toTwos32 lo h4 h5,
    fromTwos_toTwos16 al h6 h7]

/-- C1: for every air-track report whose fields satisfy the width
invariants of the data model, decoding the encoding of the report yields
a message equal to the original bit-for-bit:
`JMessage::from_bytes(JMessage::to_bytes(J3_2(r))) == J3_2(r)`. -/
theorem decode_encode_roundtrip (r : J3_2AirTrack) (h : r.Wellformed) :
    Except.bind (JMessage.to_bytes (.J3_2 r)) JMessage.from_bytes =
      .ok (.J3_2 r) := by
  show JMessage.from_bytes (MSG_ID_J3_2 ::
    (beBytes 2 r.track ++ beBytes 4 (toTwos 32 r.lat_e7) ++
     beBytes 4 (toTwos 32 r.lon_e7) ++ beBytes 2 (toTwos 16 r.alt_m) ++
     beBytes 2 r.speed_ms ++ beBytes 2 r.heading_cdeg)) = .ok (.J3_2 r)
  have hb := body_roundtrip r h
  simp only [List.append_assoc] at hb
  simp [JMessage.from_bytes, hb]

/-- Witness for C1 at the repository's own test vector
`from_geo(42, 45.1234567, -122.9876543, 1500, 220, 271.5)`. -/
theorem decode_encode_roundtrip_witness :
    (J3_2AirTrack.Wellformed ⟨42, 451234567, -1229876543, 1500, 220, 27150⟩) ∧
    Except.bind
        (JMessage.to_bytes (.J3_2 ⟨42, 451234567, -1229876543, 1500, 220, 27150⟩))
        JMessage.from_bytes =
      .ok (.J3_2 ⟨42, 451234567, -1229876543, 1500, 220, 27150⟩) :=
  ⟨by decide, decode_encode_roundtrip _ (by decide)⟩

/-- C2 counterexample: the claim says the full wire frame is exactly 16
bytes, but on the byte-aligned layout in src/ the frame of the all-zero
report is 17 bytes (1 kind byte plus a 16-byte body), not 16. -/
theorem frame_length_not_sixteen :
    ¬ ((JMessage.to_bytes (.J3_2 ⟨0, 0, 0, 0, 0, 0⟩)).map List.length = .ok 16) := by
  decide

/-- C2 amended: encoding always produces a body of exactly 16 bytes (the
fields are byte-aligned: 2 + 4 + 4 + 2 + 2 + 2, no padding), so the full
wire frame returned by `JMessage::to_bytes` is exactly 17 bytes long. -/
theorem frame_and_body_lengths (r : J3_2AirTrack) :
    (JMessage.to_bytes (.J3_2 r)).map List.length = .ok 17 ∧
    (J3_2AirTrack.to_bytes r).map List.length = .ok 16 := by
  constructor <;>
    simp [JMessage.to_bytes, J3_2AirTrack.to_bytes, Except.map, beBytes_length]

/-- C3: for every 16-bit track identifier, the report produced by the
bit-packed variant's `from_geo` (modelled from the spec) carries a
`track_number` equal to `track & 0x0FFF`, the low 12 bits of `track`. -/
theorem from_geo_track_number_masked (track : Nat) (lat lon alt : ℚ)
    (sp hd : Nat) (h : track < 2 ^ 16) :
    (AirTrackReport.from_geo track lat lon alt sp hd).track_number =
      track &&& 0x0FFF ∧
    (AirTrackReport.from_geo track lat lon alt sp hd).track_number =
      track % 2 ^ 12 := by
  refine ⟨rfl, ?_⟩
  show track &&& 0x0FFF = track % 2 ^ 12
  have e : (0x0FFF : Nat) = 2 ^ 12 - 1 := by norm_num
  rw [e]
  exact Nat.and_pow_two_sub_one_eq_mod track 12

/-- Witness for C3 at track id 0xABCD = 43981, whose low 12 bits are
0xBCD = 3021. -/
theorem from_geo_track_number_masked_witness :
    (43981 : Nat) < 2 ^ 16 ∧
    ((AirTrackReport.from_geo 43981 0 0 0 0 0).track_number = 43981 &&& 0x0FFF ∧
     (AirTrackReport.from_geo 43981 0 0 0 0 0).track_number = 43981 % 2 ^ 12) :=
  ⟨by decide, from_geo_track_number_masked 43981 0 0 0 0 0 (by decide)⟩

/-- C4: for every latitude in [-90, 90], the bit-packed variant's
`from_geo` (modelled from the spec) stores the packed latitude code
`round((lat_deg + 90.0) * 524287 / 180)`, a value in [0, 524287]. -/
theorem from_geo_latitude_code (track : Nat) (lat lon alt : ℚ) (sp hd : Nat)
    (h1 : -90 ≤ lat) (h2 : lat ≤ 90) :
    (AirTrackReport.from_geo track lat lon alt sp hd).latitude =
      rustRound ((lat + 90) * 524287 / 180) ∧
    0 ≤ (AirTrackReport.from_geo track lat lon alt sp hd).latitude ∧
    (AirTrackReport.from_geo track lat lon alt sp hd).latitude ≤ 524287 := by
  have hq0 : (0 : ℚ) ≤ (lat + 90) * 524287 / 180 :=
    div_nonneg (mul_nonneg (by linarith) (by norm_num)) (by norm_num)
  have hq1 : (lat + 90) * 524287 / 180 ≤ 524287 := by
    rw [div_le_iff₀ (by norm_num : (0 : ℚ) < 180)]
    nlinarith
  have hrr : rustRound ((lat + 90) * 524287 / 180) =
      ⌊(lat + 90) * 524287 / 180 + 1 / 2⌋ := by
    unfold rustRound
    rw [if_neg (not_lt.mpr hq0)]
  refine ⟨rfl, ?_, ?_⟩
  · show 0 ≤ rustRound ((lat + 90) * 524287 / 180)
    rw [hrr]
    exact Int.floor_nonneg.mpr (by linarith)
  · show rustRound ((lat + 90) * 524287 / 180) ≤ 524287
    rw [hrr]
    have hfl : ⌊(lat + 90) * 524287 / 180 + 1 / 2⌋ < 524288 := by
      rw [Int.floor_lt]
      push_cast
      linarith
    omega

/-- Witness for C4 at latitude 45 degrees. -/
theorem from_geo_latitude_code_witness :
    (-90 ≤ (45 : ℚ) ∧ (45 : ℚ) ≤ 90) ∧
    ((AirTrackReport.from_geo 7 45 0 0 0 0).latitude =
       rustRound (((45 : ℚ) + 90) * 524287 / 180) ∧
     0 ≤ (AirTrackReport.from_geo 7 45 0 0 0 0).latitude ∧
     (AirTrackReport.from_geo 7 45 0 0 0 0).latitude ≤ 524287) :=
  ⟨⟨by decide, by decide⟩, from_geo_latitude_code 7 45 0 0 0 0 (by decide) (by decide)⟩

/-- C5 counterexample: the claim says an out-of-domain physical input
makes the conversion fail with a quantization-overflow error, but
`from_geo` in src/ has no error path at all: at latitude 300 degrees
(far outside [-90, 90]) it silently returns a report whose `lat_e7` was
saturated by the `as i32` cast to `i32::MAX` = 2147483647. -/
theorem from_geo_out_of_range_saturates :
    J3_2AirTrack.from_geo 1 300 0 0 0 0 = ⟨1, 2147483647, 0, 0, 0, 0⟩ := by
  simp only [J3_2AirTrack.from_geo, rustRound, castI32, castU16, remEuclidQ]
  norm_num

/-- C5 amended: `from_geo` is infallible — the `Error` enum has no
quantization-overflow variant — and every scaled input is silently
clamped into its target width by Rust's saturating float→int `as` casts:
`lat_e7` and `lon_e7` always land in the `i32` range and `heading_cdeg`
in the `u16` range, for all inputs whatsoever. -/
theorem from_geo_never_fails_saturates (track : Nat) (lat lon : ℚ)
    (alt : Int) (sp : Nat) (hdg : ℚ) :
    -(2 : Int) ^ 31 ≤ (J3_2AirTrack.from_geo track lat lon alt sp hdg).lat_e7 ∧
    (J3_2AirTrack.from_geo track lat lon alt sp hdg).lat_e7 ≤ 2 ^ 31 - 1 ∧
    -(2 : Int) ^ 31 ≤ (J3_2AirTrack.from_geo track lat lon alt sp hdg).lon_e7 ∧
    (J3_2AirTrack.from_geo track lat lon alt sp hdg).lon_e7 ≤ 2 ^ 31 - 1 ∧
    (J3_2AirTrack.from_geo track lat lon alt sp hdg).heading_cdeg ≤ 65535 := by
  simp only [J3_2AirTrack.from_geo, castI32, castU16]
  refine ⟨le_max_left _ _, max_le (by norm_num) (min_le_left _ _),
          le_max_left _ _, max_le (by norm_num) (min_le_left _ _), ?_⟩
  have h1 : min 65535 (rustRound (remEuclidQ hdg 360 * 100)) ≤ 65535 :=
    min_le_left _ _
  have h2 : max 0 (min 65535 (rustRound (remEuclidQ hdg 360 * 100))) ≤ 65535 :=
    max_le (by norm_num) h1
  exact Int.toNat_le.mpr h2

/-- C6: the bit-packed variant's `from_geo` (modelled from the spec)
stores the caller's heading verbatim as centidegrees, with no scaling
and no range check: any 16-bit value, including ones outside [0, 35999],
is stored unchanged. -/
theorem from_geo_heading_verbatim (track : Nat) (lat lon alt : ℚ)
    (sp hd : Nat) (h : hd < 2 ^ 16) :
    (AirTrackReport.from_geo track lat lon alt sp hd).heading_cdeg = hd := rfl

/-- Witness for C6 at heading 36005 centidegrees, which is outside
[0, 35999] yet stored unchanged rather than rejected or altered. -/
theorem from_geo_heading_verbatim_witness :
    (36005 : Nat) < 2 ^ 16 ∧
    (AirTrackReport.from_geo 1 0 0 0 0 36005).heading_cdeg = 36005 :=
  ⟨by decide, from_geo_heading_verbatim 1 0 0 0 0 36005 (by decide)⟩

/-- C7 counterexample: decoding the buffer holding only the kind byte
0x32 does not fail with the `Short` variant; it fails with the `Deku`
variant wrapping deku's incomplete-input error for the first 16-bit
field read. -/
theorem kind_only_error_not_Short :
    JMessage.from_bytes [MSG_ID_J3_2] = .error (.Deku (.incomplete 16)) ∧
    (JError.Deku (.incomplete 16)).isShort = false := by
  decide

/-- C7 amended: decoding a buffer containing only the kind byte 0x32
fails with the `Deku`-wrapped incomplete-input error (which reports the
bits the field read needed), while the `Short` variant is produced only
for the completely empty buffer. -/
theorem kind_only_vs_empty_errors :
    JMessage.from_bytes [MSG_ID_J3_2] = .error (.Deku (.incomplete 16)) ∧
    JMessage.from_bytes [] = .error (.Short 0) := by
  decide

/-- C8: decoding any buffer whose first byte is not the registered kind
code 0x32 fails with `Unsupported` carrying that byte, whatever follows. -/
theorem unknown_kind_unsupported (b : Nat) (rest : List Nat)
    (h : b ≠ MSG_ID_J3_2) :
    JMessage.from_bytes (b :: rest) = .error (.Unsupported b) := by
  simp [JMessage.from_bytes, h]

/-- Witness for C8 at the spec's example frame `[0x99, <14 zero bytes>]`. -/
theorem unknown_kind_unsupported_witness :
    (0x99 : Nat) ≠ MSG_ID_J3_2 ∧
    JMessage.from_bytes (0x99 :: List.replicate 14 0) =
      .error (.Unsupported 0x99) :=
  ⟨by decide, unknown_kind_unsupported 0x99 (List.replicate 14 0) (by decide)⟩

/-- C9: encoding is infallible — for every message value,
`JMessage::to_bytes` returns `Ok` with a buffer; the error branch of its
`Result` signature is never taken. -/
theorem encode_never_fails (m : JMessage) :
    ∃ buf, JMessage.to_bytes m = .ok buf := by
  cases m with
  | J3_2 v => exact ⟨_, rfl⟩
